import Mathlib

set_option linter.unusedVariables false

namespace Asciicast

/-- JSON values as produced by parsing a recording file. Integers and
floating-point numbers are kept apart, as the host language distinguishes
them; floating-point numbers are idealized as rationals. -/
inductive Json where
  | null
  | bool (b : Bool)
  | int (n : Int)
  | num (q : ℚ)
  | str (s : String)
  | arr (elems : List Json)
  | obj (fields : List (String × Json))

/-- First-match lookup in an object field list (dictionary access; parsed
objects never hold a key twice). -/
def lookupField : List (String × Json) → String → Option Json
  | [], _ => none
  | (k, v) :: rest, key => if k = key then some v else lookupField rest key

/-- Field access on a value: some value when the value is an object holding
the key, none otherwise. -/
def jget : Json → String → Option Json
  | .obj fields, key => lookupField fields key
  | _, _ => none

/-- One recorded event: elapsed seconds since session start, the kind tag as
recorded ("i" for input, "o" for output), and the decoded payload text. -/
structure Event where
  elapsed : ℚ
  kind : String
  data : String
deriving DecidableEq

/-- Header data captured at session start. The format version is not a field:
the recorder always writes the literal 2. -/
structure RecHeader where
  width : Int
  height : Int
  timestamp : Int
  shell : String
  term : String
deriving DecidableEq

/-- The header object built by the recorder, in insertion order: version 2,
width, height, timestamp, and the env object with the SHELL and TERM keys. -/
def headerFields (h : RecHeader) : List (String × Json) :=
  [("version", .int 2), ("width", .int h.width), ("height", .int h.height),
   ("timestamp", .int h.timestamp),
   ("env", .obj [("SHELL", .str h.shell), ("TERM", .str h.term)])]

/-- One event as serialized: a three-element array [elapsed, kind, data]. -/
def eventJson (e : Event) : Json :=
  .arr [.num e.elapsed, .str e.kind, .str e.data]

/-- The persisted recording object: the header fields spread first, with the
events array appended under the "events" key. -/
def recordingJson (h : RecHeader) (events : List Event) : Json :=
  .obj (headerFields h ++ [("events", .arr (events.map eventJson))])

/-- The playback side unpacks an event as a three-element sequence of a
number and two strings; a well-formed serialized event decodes back to its
fields. -/
def decodeEvent : Json → Option Event
  | .arr [.num t, .str k, .str d] => some ⟨t, k, d⟩
  | _ => none

/-- What a source path can hold: no file, a file that is not syntactically
valid JSON, or a file parsing to a JSON value. -/
inductive File where
  | missing
  | invalid
  | valid (j : Json)

/-- How a command ends: a clean exit with a status code, or an unhandled
fault (an uncaught exception aborting the process). -/
inductive Outcome where
  | exited (code : ℕ)
  | faulted
deriving DecidableEq

/-- load_recording: returns the parsed JSON value; when the file is absent or
is not syntactically valid JSON it prints a message and exits with status 1.
No check of the document structure is performed beyond JSON syntax. -/
def loadRecording (inputFile : String) : File → Except (String × ℕ) Json
  | .missing => .error ("Error: Recording file " ++ inputFile ++ " not found", 1)
  | .invalid => .error ("Error: Invalid recording file " ++ inputFile, 1)
  | .valid j => .ok j

/-- Observable playback effects, in order of occurrence: a printed notice
line, the terminal-clear escape sequence, a sleep of a given duration, and a
write of an event payload to the terminal. -/
inductive Step where
  | notice (s : String)
  | clear
  | sleep (d : ℚ)
  | write (d : Json)

/-- Numeric coercion as used by the delay subtraction: integers, floats and
booleans are numbers (a boolean counts as 0 or 1); anything else raises a
type error when subtracted. -/
def asNum : Json → Option ℚ
  | .int n => some (n : ℚ)
  | .num q => some q
  | .bool b => some (if b then 1 else 0)
  | _ => none

/-- The kind test of the loop (event_type == "o"): true exactly when the tag
is the string "o". -/
def isOutTag : Json → Bool
  | .str s => s == "o"
  | _ => false

/-- Result of the playback loop: the effect trace, whether an unhandled error
was raised, and the final value of the last_time variable. -/
structure LoopResult where
  trace : List Step
  faulted : Bool
  lastElapsed : ℚ

/-- The playback loop over the raw events value. For each event: unpack it as
a three-element sequence, compute delay = (elapsed - last_time) / speed (a
speed of zero raises an unhandled division error), sleep exactly when the
delay is positive, write the payload only when the kind tag equals "o", and
set last_time to the elapsed value unconditionally. An event that does not
unpack to three parts, or whose first part is not a number, raises an
unhandled error that ends the loop at that event. -/
def playEventsLoop (speed : ℚ) : List Json → ℚ → LoopResult
  | [], t => ⟨[], false, t⟩
  | ev :: rest, t =>
    match ev with
    | .arr [tj, k, d] =>
      match asNum tj with
      | some ts =>
        if speed = 0 then ⟨[], true, t⟩
        else
          let delay := (ts - t) / speed
          let r := playEventsLoop speed rest ts
          ⟨(if 0 < delay then [.sleep delay] else []) ++
             (if isOutTag k then [.write d] else []) ++ r.trace,
           r.faulted, r.lastElapsed⟩
      | none => ⟨[], true, t⟩
    | _ => ⟨[], true, t⟩

/-- play: prints the two notice lines and the clear sequence, reads the
events with recording.get("events", []) (an attribute error, hence a fault,
when the loaded value is not an object), runs the loop (iterating a
non-array events value faults at its first element, before any effect), and
prints the finished notice on normal completion. The Boolean is true when an
unhandled error occurred. -/
def play (inputFile : String) (recording : Json) (speed : ℚ) : List Step × Bool :=
  let prologue : List Step :=
    [.notice ("Playing " ++ inputFile), .notice "Press Ctrl+C to stop playback", .clear]
  match recording with
  | .obj fields =>
    match (lookupField fields "events").getD (.arr []) with
    | .arr evs =>
      let r := playEventsLoop speed evs 0
      if r.faulted then (prologue ++ r.trace, true)
      else (prologue ++ r.trace ++ [.notice "Playback finished"], false)
    | _ => (prologue, true)
  | _ => (prologue, true)

/-- The sleep durations of a trace, in order. -/
def sleepsOf : List Step → List ℚ
  | [] => []
  | .sleep d :: rest => d :: sleepsOf rest
  | _ :: rest => sleepsOf rest

/-- The payloads written to the terminal by a trace, in order. -/
def writesOf : List Step → List Json
  | [] => []
  | .write d :: rest => d :: writesOf rest
  | _ :: rest => writesOf rest

/-- The play subcommand: load the file, then play it. A load error prints the
message and exits with its code; an unhandled error during playback aborts
the process as a fault; otherwise the process exits with status zero. -/
def playCmd (inputFile : String) (fs : File) (speed : ℚ) : List Step × Outcome :=
  match loadRecording inputFile fs with
  | .error e => ([.notice e.1], .exited e.2)
  | .ok j =>
    let r := play inputFile j speed
    (r.1, if r.2 then .faulted else .exited 0)

/-- The final last_time value threaded through the recorded events: the
elapsed value of the last event, or the starting value for no events. -/
def finalElapsed : List Event → ℚ → ℚ
  | [], t => t
  | e :: rest, _ => finalElapsed rest e.elapsed

/-- A header used for the concrete instances below. -/
def demoHeader : RecHeader := ⟨80, 24, 1700000000, "/bin/bash", "xterm-256color"⟩

/-- The three output events of the timing example: 2.5 seconds of content. -/
def demoEvents : List Event := [⟨0, "o", "a"⟩, ⟨1, "o", "b"⟩, ⟨5/2, "o", "c"⟩]

/-- The two events of the non-monotonic example: elapsed goes 2.0 then 1.0. -/
def nonMonoEvents : List Event := [⟨2, "o", "x"⟩, ⟨1, "o", "y"⟩]

/-- The recording used in the speed-zero counterexample: one output event. -/
def oneOutputRec : Json := recordingJson ⟨80, 24, 0, "/bin/sh", "xterm"⟩ [⟨1, "o", "x"⟩]

/-- The effects of record that touch the terminal, its descriptors and the
output file, in program order. setAttrs stands for tcsetattr. -/
inductive TermAction (A : Type) where
  | spawnChild
  | closeSlaveFd
  | setAttrs (a : A)
  | writeRecordingFile
  | closeMasterFd

/-- The exit paths of a recording session named by the restoration claim. -/
inductive ExitPath where
  | normalExit
  | readWriteError
  | spawnFailure
  | cancelled

/-- The attribute-relevant action sequence of record on each exit path, for a
terminal whose attributes were saved as init before the protected block and
whose raw mode is raw. A spawn failure leaves the block before raw mode is
entered; a descriptor read or write error breaks the loop but still writes
the recording file; a cancellation leaves the block without writing the
file. The cleanup block always runs last: it restores the saved attributes
and then closes the master descriptor. -/
def recordActions {A : Type} (init raw : A) : ExitPath → List (TermAction A)
  | .spawnFailure => [.spawnChild, .setAttrs init, .closeMasterFd]
  | .normalExit => [.spawnChild, .closeSlaveFd, .setAttrs raw, .writeRecordingFile,
      .setAttrs init, .closeMasterFd]
  | .readWriteError => [.spawnChild, .closeSlaveFd, .setAttrs raw, .writeRecordingFile,
      .setAttrs init, .closeMasterFd]
  | .cancelled => [.spawnChild, .closeSlaveFd, .setAttrs raw, .setAttrs init, .closeMasterFd]

/-- The terminal attributes after a sequence of actions runs, starting from
the given attributes: only setAttrs changes them. -/
def applyAttrs {A : Type} : List (TermAction A) → A → A
  | [], a => a
  | .setAttrs b :: rest, _ => applyAttrs rest b
  | _ :: rest, a => applyAttrs rest a

/-- Python truthiness of a loaded JSON value, as used by the duration line. -/
def truthy : Json → Bool
  | .null => false
  | .bool b => b
  | .int n => n != 0
  | .num q => q != 0
  | .str s => !s.isEmpty
  | .arr l => !l.isEmpty
  | .obj fs => !fs.isEmpty

/-- Decimal digits of a rational in [0, 1): the exact expansion, cut at the
given number of places (floating-point values are idealized as rationals, so
the expansion is exact where the host prints a shortest round-tripping
form). -/
def fracDigits : ℕ → ℚ → String
  | 0, _ => ""
  | fuel + 1, q =>
    if q = 0 then ""
    else toString ⌊q * 10⌋ ++ fracDigits fuel (q * 10 - (⌊q * 10⌋ : ℚ))

/-- Rendering of a float value as repr prints it: sign, integer part, a
point, and the fractional digits (at least one digit, so 2 renders as 2.0). -/
def decimalString (q : ℚ) : String :=
  (if q < 0 then "-" else "") ++ toString ⌊|q|⌋.toNat ++ "."
    ++ (if |q| - (⌊|q|⌋ : ℚ) = 0 then "0" else fracDigits 17 (|q| - (⌊|q|⌋ : ℚ)))

/-- Fixed two-decimal formatting used by the duration line (rounding
idealized as round-half-up on the exact rational). -/
def fmt2 (q : ℚ) : String :=
  (if round (q * 100) < 0 then "-" else "") ++ toString ((round (q * 100)).natAbs / 100)
    ++ "." ++ (if (round (q * 100)).natAbs % 100 < 10 then "0" else "")
    ++ toString ((round (q * 100)).natAbs % 100)

mutual

/-- Nesting depth of a value, used as recursion fuel by the renderers. -/
def jdepth : Json → ℕ
  | .null => 1
  | .bool _ => 1
  | .int _ => 1
  | .num _ => 1
  | .str _ => 1
  | .arr elems => jdepthList elems + 1
  | .obj fields => jdepthFields fields + 1

/-- Nesting depth of a list of values. -/
def jdepthList : List Json → ℕ
  | [] => 0
  | j :: rest => max (jdepth j) (jdepthList rest)

/-- Nesting depth of an object field list. -/
def jdepthFields : List (String × Json) → ℕ
  | [] => 0
  | (_, v) :: rest => max (jdepth v) (jdepthFields rest)

end

/-- str()/repr() of a loaded value as interpolated into the info lines:
None, True/False, decimal numbers, raw string content, and containers
rendered inline with \x27-quoted strings (inner string escaping is not
modelled; info lines are display text only). -/
def reprJsonF : ℕ → Json → String
  | _, .null => "None"
  | _, .bool b => if b then "True" else "False"
  | _, .int n => toString n
  | _, .num q => decimalString q
  | _, .str s => "\x27" ++ s ++ "\x27"
  | 0, _ => ""
  | fuel + 1, .arr elems => "[" ++ String.intercalate ", " (elems.map (reprJsonF fuel)) ++ "]"
  | fuel + 1, .obj fields =>
    "\x7b" ++ String.intercalate ", "
      (fields.map fun kv => "\x27" ++ kv.1 ++ "\x27: " ++ reprJsonF fuel kv.2) ++ "\x7d"

/-- str() of a loaded value: the raw content for strings, repr otherwise. -/
def pyStr : Json → String
  | .str s => s
  | j => reprJsonF (jdepth j) j

/-- len() of a loaded value: defined for sequences and mappings, a type
error (none) otherwise. -/
def pyLen : Json → Option ℕ
  | .arr l => some l.length
  | .str s => some s.length
  | .obj fs => some fs.length
  | _ => none

/-- Subscript [-1] on a loaded value: the last element of a list, the last
character of a string; an error (none) for anything else, including empty
sequences. -/
def pyLast : Json → Option Json
  | .arr l => l.getLast?
  | .str s => (s.toList.getLast?).map fun c => .str (String.mk [c])
  | _ => none

/-- Subscript [0] on a loaded value: the first element of a list, the first
character of a string; an error (none) otherwise. -/
def pyFirst : Json → Option Json
  | .arr l => l.head?
  | .str s => (s.toList.head?).map fun c => .str (String.mk [c])
  | _ => none

/-- The value formatted by the duration line: events[-1][0], which must be a
number for the .2f format. -/
def durOf (ev : Json) : Option ℚ :=
  ((pyLast ev).bind pyFirst).bind asNum

/-- The protected body of the info subcommand applied to a loaded value:
the lines it prints, and whether an exception escaped partway (a non-object
recording fails at the first attribute access, a bad duration value or a
non-sized events value or a non-object env value fails after the earlier
lines printed). -/
def infoTry (inputFile : String) (r : Json) : List String × Bool :=
  match r with
  | .obj fs =>
    let l1 := "File: " ++ inputFile
    let l2 := "Version: " ++ pyStr ((lookupField fs "version").getD (.str "unknown"))
    let l3 := "Size: " ++ pyStr ((lookupField fs "width").getD (.str "?")) ++ "x"
      ++ pyStr ((lookupField fs "height").getD (.str "?"))
    let evOpt := lookupField fs "events"
    let durLine : Option String :=
      if (match evOpt with | some v => truthy v | none => false) then
        (durOf (evOpt.getD .null)).map fun q => "Duration: " ++ fmt2 q ++ "s"
      else some "0s"
    match durLine with
    | none => ([l1, l2, l3], true)
    | some l4 =>
      match pyLen ((lookupField fs "events").getD (.arr [])) with
      | none => ([l1, l2, l3, l4], true)
      | some n =>
        match (lookupField fs "env").getD (.obj []) with
        | .obj envFs =>
          ([l1, l2, l3, l4, "Events: " ++ toString n,
            "Shell: " ++ pyStr ((lookupField envFs "SHELL").getD (.str "unknown"))], false)
        | _ => ([l1, l2, l3, l4, "Events: " ++ toString n], true)
  | _ => (["File: " ++ inputFile], true)

/-- The info subcommand: every exception of the body, including a missing
file and invalid JSON, is caught by the blanket handler, which prints an
error line; the command then falls through and the process exits with
status zero on every path. The text after the colon stands for the
exception's message, whose exact wording is environment-dependent. -/
def infoCmd (inputFile : String) : File → List String × Outcome
  | .missing => (["Error reading file: no such file: " ++ inputFile], .exited 0)
  | .invalid => (["Error reading file: invalid JSON"], .exited 0)
  | .valid j =>
    match infoTry inputFile j with
    | (ls, false) => (ls, .exited 0)
    | (ls, true) => (ls ++ ["Error reading file: bad recording value"], .exited 0)

/-- Four lowercase hex digits, as used by the uXXXX escapes. -/
def hex4 (n : ℕ) : String :=
  String.mk (List.replicate (4 - (Nat.toDigits 16 (n % 65536)).length) '0'
    ++ Nat.toDigits 16 (n % 65536))

/-- ASCII-only JSON escaping of one character: quote and backslash get a
backslash escape, the common control characters get their short forms,
every other character outside the printable ASCII range is written as a
uXXXX escape (with a surrogate pair beyond the basic plane), and printable
ASCII passes through. -/
def escapeChar (c : Char) : String :=
  if c = '"' then "\\\""
  else if c = '\\' then "\\\\"
  else if c = '\n' then "\\n"
  else if c = '\r' then "\\r"
  else if c = '\t' then "\\t"
  else if c.toNat = 8 then "\\b"
  else if c.toNat = 12 then "\\f"
  else if 32 ≤ c.toNat ∧ c.toNat ≤ 126 then String.mk [c]
  else if c.toNat < 65536 then "\\u" ++ hex4 c.toNat
  else "\\u" ++ hex4 (55296 + (c.toNat - 65536) / 1024)
    ++ "\\u" ++ hex4 (56320 + (c.toNat - 65536) % 1024)

/-- A JSON string literal: the escaped characters between double quotes. -/
def renderString (s : String) : String :=
  "\"" ++ String.join (s.toList.map escapeChar) ++ "\""

/-- The indentation prefix at a nesting level: two spaces per level. -/
def padLvl (lvl : ℕ) : String := String.mk (List.replicate (2 * lvl) ' ')

/-- Serialization with indent=2 as the dump call produces it: scalars
inline, every container item on its own line one level deeper, items
separated by a comma, keys separated from values by a colon and space, and
empty containers inline. The fuel bounds nesting depth and is instantiated
above the depth of the rendered value. -/
def renderJsonF : ℕ → ℕ → Json → String
  | _, _, .null => "null"
  | _, _, .bool b => if b then "true" else "false"
  | _, _, .int n => toString n
  | _, _, .num q => decimalString q
  | _, _, .str s => renderString s
  | _, _, .arr [] => "[]"
  | _, _, .obj [] => "\x7b\x7d"
  | 0, _, _ => ""
  | fuel + 1, lvl, .arr elems =>
    "[\n" ++ String.intercalate ",\n"
      (elems.map fun e => padLvl (lvl + 1) ++ renderJsonF fuel (lvl + 1) e)
      ++ "\n" ++ padLvl lvl ++ "]"
  | fuel + 1, lvl, .obj fields =>
    "\x7b\n" ++ String.intercalate ",\n"
      (fields.map fun kv => padLvl (lvl + 1) ++ renderString kv.1 ++ ": "
        ++ renderJsonF fuel (lvl + 1) kv.2)
      ++ "\n" ++ padLvl lvl ++ "\x7d"

/-- The complete serialized text of a value. -/
def renderJson (j : Json) : String := renderJsonF (jdepth j) 0 j

/-- The first n characters of a string. -/
def takeChars (s : String) (n : ℕ) : String := String.mk (s.toList.take n)

/-- persist: opens the destination for writing, which truncates any previous
content immediately, then streams the serialization chunk by chunk; when the
write fails after some number of characters, exactly those characters are
left visible in the file; only when no failure occurs does the file hold the
complete serialization. The previous content never survives the call. -/
def persistFile (previous : Option String) (r : Json) (failAfter : Option ℕ) : Option String :=
  match failAfter with
  | none => some (renderJson r)
  | some k => some (takeChars (renderJson r) k)

/-- The exit-status requirement of the corrupt-file claim: a clean exit with
a nonzero status code. -/
def exitsNonZero (o : Outcome) : Prop := ∃ c, o = .exited c ∧ c ≠ 0

/-- Whether a value is a JSON object. -/
def isObjValue : Json → Bool
  | .obj _ => true
  | _ => false

/-- The small all-integer recording of the persist counterexample. -/
def tinyRec : Json := recordingJson ⟨80, 24, 1700000000, "/bin/bash", "xterm"⟩ []

/-- The header of the env-keys counterexample. -/
def envHeader : RecHeader := ⟨80, 24, 1700000000, "/bin/bash", "xterm-256color"⟩

lemma playEventsLoop_encoded_cons (speed : ℚ) (hs : ¬ speed = 0) (e : Event)
    (rest : List Json) (t : ℚ) :
    playEventsLoop speed (eventJson e :: rest) t =
      ⟨(if 0 < (e.elapsed - t) / speed then [Step.sleep ((e.elapsed - t) / speed)] else []) ++
         (if e.kind == "o" then [Step.write (Json.str e.data)] else []) ++
         (playEventsLoop speed rest e.elapsed).trace,
       (playEventsLoop speed rest e.elapsed).faulted,
       (playEventsLoop speed rest e.elapsed).lastElapsed⟩ := by
  simp [playEventsLoop, eventJson, asNum, isOutTag, hs]

lemma sleepsOf_append (a b : List Step) : sleepsOf (a ++ b) = sleepsOf a ++ sleepsOf b := by
  induction a with
  | nil => rfl
  | cons s rest ih => cases s <;> simp [sleepsOf, ih]

lemma writesOf_append (a b : List Step) : writesOf (a ++ b) = writesOf a ++ writesOf b := by
  induction a with
  | nil => rfl
  | cons s rest ih => cases s <;> simp [writesOf, ih]

lemma loop_not_faulted (speed : ℚ) (hs : ¬ speed = 0) (events : List Event) (t : ℚ) :
    (playEventsLoop speed (events.map eventJson) t).faulted = false := by
  induction events generalizing t with
  | nil => rfl
  | cons e rest ih =>
    rw [List.map_cons, playEventsLoop_encoded_cons speed hs]
    exact ih e.elapsed

lemma loop_last_elapsed (speed : ℚ) (hs : ¬ speed = 0) (events : List Event) (t : ℚ) :
    (playEventsLoop speed (events.map eventJson) t).lastElapsed = finalElapsed events t := by
  induction events generalizing t with
  | nil => rfl
  | cons e rest ih =>
    rw [List.map_cons, playEventsLoop_encoded_cons speed hs]
    exact ih e.elapsed

lemma loop_writes (speed : ℚ) (hs : ¬ speed = 0) (events : List Event) (t : ℚ) :
    writesOf (playEventsLoop speed (events.map eventJson) t).trace
      = (events.filter fun e => e.kind == "o").map fun e => Json.str e.data := by
  induction events generalizing t with
  | nil => rfl
  | cons e rest ih =>
    rw [List.map_cons, playEventsLoop_encoded_cons speed hs]
    cases hk : (e.kind == "o") <;>
      simp [writesOf_append, writesOf, hk, List.filter_cons, ih e.elapsed] <;>
      split <;> simp [writesOf]

lemma sleepsOf_write_if (c : Bool) (d : Json) :
    sleepsOf (if c then [Step.write d] else []) = [] := by
  cases c <;> rfl

lemma loop_sleep_sum (speed : ℚ) (hs : 0 < speed) (events : List Event) (t : ℚ)
    (hchain : List.Chain (· ≤ ·) t (events.map Event.elapsed)) :
    (sleepsOf (playEventsLoop speed (events.map eventJson) t).trace).sum
      = (finalElapsed events t - t) / speed := by
  induction events generalizing t with
  | nil => simp [playEventsLoop, sleepsOf, finalElapsed]
  | cons e rest ih =>
    rw [List.map_cons, List.chain_cons] at hchain
    obtain ⟨hte, hrest⟩ := hchain
    rw [List.map_cons, playEventsLoop_encoded_cons speed hs.ne']
    simp only [finalElapsed]
    rw [sleepsOf_append, sleepsOf_append, sleepsOf_write_if, List.append_nil,
      List.sum_append, ih e.elapsed hrest]
    by_cases hdelay : 0 < (e.elapsed - t) / speed
    · rw [if_pos hdelay]
      simp only [sleepsOf, List.sum_cons, List.sum_nil]
      rw [add_zero, div_add_div_same]
      ring_nf
    · have hnn : 0 ≤ (e.elapsed - t) / speed := div_nonneg (sub_nonneg.mpr hte) hs.le
      have h0 : (e.elapsed - t) / speed = 0 := le_antisymm (not_lt.mp hdelay) hnn
      have he : e.elapsed = t := by
        rcases div_eq_zero_iff.mp h0 with h | h
        · linarith [sub_eq_zero.mp h]
        · exact absurd h hs.ne'
      rw [if_neg hdelay]
      simp [sleepsOf, he]

lemma loop_sleeps_pos (speed : ℚ) (evs : List Json) (t d : ℚ)
    (hd : d ∈ sleepsOf (playEventsLoop speed evs t).trace) : 0 < d := by
  induction evs generalizing t with
  | nil => simp [playEventsLoop, sleepsOf] at hd
  | cons ev rest ih =>
    cases ev with
    | arr elems =>
      rcases elems with _ | ⟨tj, _ | ⟨k, _ | ⟨dd, _ | more⟩⟩⟩
      · simp [playEventsLoop, sleepsOf] at hd
      · simp [playEventsLoop, sleepsOf] at hd
      · simp [playEventsLoop, sleepsOf] at hd
      · cases htj : asNum tj with
        | none => simp [playEventsLoop, htj, sleepsOf] at hd
        | some ts =>
          by_cases hsp : speed = 0
          · simp [playEventsLoop, htj, hsp, sleepsOf] at hd
          · simp only [playEventsLoop, htj, if_neg hsp] at hd
            rw [sleepsOf_append, sleepsOf_append, sleepsOf_write_if] at hd
            by_cases hdelay : 0 < (ts - t) / speed
            · rw [if_pos hdelay] at hd
              simp only [sleepsOf, List.append_nil, List.mem_append, List.mem_cons,
                List.not_mem_nil, or_false] at hd
              rcases hd with h | h
              · exact h ▸ hdelay
              · exact ih ts h
            · rw [if_neg hdelay] at hd
              simp only [sleepsOf, List.nil_append, List.append_nil] at hd
              exact ih ts hd
      · simp [playEventsLoop, sleepsOf] at hd
    | null => simp [playEventsLoop, sleepsOf] at hd
    | bool b => simp [playEventsLoop, sleepsOf] at hd
    | int n => simp [playEventsLoop, sleepsOf] at hd
    | num q => simp [playEventsLoop, sleepsOf] at hd
    | str s => simp [playEventsLoop, sleepsOf] at hd
    | obj fields => simp [playEventsLoop, sleepsOf] at hd

lemma sleepsOf_notice (s : String) (rest : List Step) :
    sleepsOf (Step.notice s :: rest) = sleepsOf rest := rfl

lemma sleepsOf_clear (rest : List Step) :
    sleepsOf (Step.clear :: rest) = sleepsOf rest := rfl

lemma play_recording_eq (f : String) (h : RecHeader) (events : List Event) (speed : ℚ)
    (hs : ¬ speed = 0) :
    play f (recordingJson h events) speed =
      ([Step.notice ("Playing " ++ f), Step.notice "Press Ctrl+C to stop playback", Step.clear]
         ++ (playEventsLoop speed (events.map eventJson) 0).trace
         ++ [Step.notice "Playback finished"], false) := by
  have hf := loop_not_faulted speed hs events 0
  simp [play, recordingJson, headerFields, lookupField, hf]

lemma finalElapsed_getLast (events : List Event) (t : ℚ) (hne : events ≠ []) :
    finalElapsed events t = (events.getLast hne).elapsed := by
  induction events generalizing t with
  | nil => exact absurd rfl hne
  | cons e rest ih =>
    cases rest with
    | nil => simp [finalElapsed, List.getLast]
    | cons e2 rest2 =>
      rw [finalElapsed, ih e.elapsed (by simp)]
      rfl

lemma decode_encode (e : Event) : decodeEvent (eventJson e) = some e := rfl

lemma map_decode_encode (events : List Event) :
    (events.map eventJson).map decodeEvent = events.map some := by
  induction events with
  | nil => rfl
  | cons e rest ih => simp only [List.map_cons, decode_encode, ih]

/-- C1: persisting a recording and loading the resulting file succeeds and
reproduces every header field (version 2, width, height, timestamp, the env
SHELL and TERM entries) and the events array in its original order, each
event decoding back to its original fields. -/
theorem recording_roundtrip (f : String) (h : RecHeader) (events : List Event) :
    loadRecording f (File.valid (recordingJson h events)) = Except.ok (recordingJson h events)
    ∧ jget (recordingJson h events) "version" = some (.int 2)
    ∧ jget (recordingJson h events) "width" = some (.int h.width)
    ∧ jget (recordingJson h events) "height" = some (.int h.height)
    ∧ jget (recordingJson h events) "timestamp" = some (.int h.timestamp)
    ∧ Option.bind (jget (recordingJson h events) "env") (fun e => jget e "SHELL")
        = some (.str h.shell)
    ∧ Option.bind (jget (recordingJson h events) "env") (fun e => jget e "TERM")
        = some (.str h.term)
    ∧ jget (recordingJson h events) "events" = some (.arr (events.map eventJson))
    ∧ (events.map eventJson).map decodeEvent = events.map some :=
  ⟨rfl, rfl, rfl, rfl, rfl, rfl, rfl, rfl, map_decode_encode events⟩

/-- C2: when the events of a recording have non-decreasing elapsed values
starting at or above zero and the speed is positive, the total time play
sleeps equals the final event's elapsed value divided by the speed; in
particular the 2.5-second demo recording sleeps 5/2 in total at speed 1 and
5/4 in total at speed 2. -/
theorem play_total_sleep (f : String) (h : RecHeader) (events : List Event) (speed : ℚ)
    (hs : 0 < speed) (hchain : List.Chain (· ≤ ·) 0 (events.map Event.elapsed))
    (hne : events ≠ []) :
    (sleepsOf (play f (recordingJson h events) speed).1).sum
        = (events.getLast hne).elapsed / speed
    ∧ (sleepsOf (play "demo.cast" (recordingJson demoHeader demoEvents) 1).1).sum = 5/2
    ∧ (sleepsOf (play "demo.cast" (recordingJson demoHeader demoEvents) 2).1).sum = 5/4 := by
  refine ⟨?_, ?_, ?_⟩
  · rw [play_recording_eq f h events speed hs.ne']
    rw [sleepsOf_append, sleepsOf_append]
    simp only [sleepsOf, List.nil_append, List.append_nil]
    rw [loop_sleep_sum speed hs events 0 hchain, finalElapsed_getLast events 0 hne, sub_zero]
  · simp [play, recordingJson, headerFields, demoHeader, demoEvents, eventJson,
      playEventsLoop, asNum, isOutTag, lookupField, sleepsOf]
    norm_num [sleepsOf]
  · simp [play, recordingJson, headerFields, demoHeader, demoEvents, eventJson,
      playEventsLoop, asNum, isOutTag, lookupField, sleepsOf]
    norm_num [sleepsOf]

theorem play_total_sleep_witness :
    (sleepsOf (play "demo.cast" (recordingJson demoHeader demoEvents) 1).1).sum
      = (demoEvents.getLast (by simp [demoEvents])).elapsed / 1 :=
  (play_total_sleep "demo.cast" demoHeader demoEvents 1 (by norm_num)
      (by norm_num [demoEvents, List.chain_cons]) (by simp [demoEvents])).1

/-- C3 counterexample: at speed 0 the delay division raises an unhandled
error before the first event is processed, so the payload of the Output
event of the one-event recording is never written even though its kind tag
is "o" — the claim fails at this recording and speed. -/
theorem play_speed_zero_divergence :
    writesOf (play "r.cast" oneOutputRec 0).1 = []
    ∧ writesOf (play "r.cast" oneOutputRec 0).1
        ≠ (([⟨1, "o", "x"⟩] : List Event).filter fun e => e.kind == "o").map
            (fun e => Json.str e.data)
    ∧ (play "r.cast" oneOutputRec 0).2 = true := by
  refine ⟨?_, ?_, ?_⟩ <;>
    simp [play, oneOutputRec, recordingJson, headerFields, lookupField,
      playEventsLoop, eventJson, asNum, writesOf]

/-- C3 (amended): for every recording and every nonzero speed, play writes an
event's payload exactly when its kind tag is "o" (the written payloads are
the Output payloads in order), and the loop's last_time variable takes the
elapsed value of every event regardless of kind, ending at the final event's
elapsed value. -/
theorem play_output_events (f : String) (h : RecHeader) (events : List Event) (speed : ℚ)
    (hs : speed ≠ 0) :
    writesOf (play f (recordingJson h events) speed).1
        = (events.filter fun e => e.kind == "o").map (fun e => Json.str e.data)
    ∧ ∀ hne : events ≠ [],
        (playEventsLoop speed (events.map eventJson) 0).lastElapsed
          = (events.getLast hne).elapsed := by
  constructor
  · rw [play_recording_eq f h events speed hs]
    rw [writesOf_append, writesOf_append]
    simp only [writesOf, List.nil_append, List.append_nil]
    exact loop_writes speed hs events 0
  · intro hne
    rw [loop_last_elapsed speed hs events 0, finalElapsed_getLast events 0 hne]

theorem play_output_events_witness :
    writesOf (play "demo.cast" (recordingJson demoHeader demoEvents) 1).1
        = (demoEvents.filter fun e => e.kind == "o").map (fun e => Json.str e.data)
    ∧ (playEventsLoop 1 (demoEvents.map eventJson) 0).lastElapsed
        = (demoEvents.getLast (by simp [demoEvents])).elapsed := by
  have h := play_output_events "demo.cast" demoHeader demoEvents 1 (by norm_num)
  exact ⟨h.1, h.2 (by simp [demoEvents])⟩

/-- C4: playback never sleeps a non-positive duration: every duration passed
to a sleep is strictly positive, for every loaded value and every speed; on
the non-monotonic two-event example the first event sleeps 2 seconds and the
second is processed immediately, its payload still written. -/
theorem play_sleeps_positive :
    (∀ (recording : Json) (speed : ℚ) (f : String) (d : ℚ),
        d ∈ sleepsOf (play f recording speed).1 → 0 < d)
    ∧ sleepsOf (play "demo.cast" (recordingJson demoHeader nonMonoEvents) 1).1 = [2]
    ∧ writesOf (play "demo.cast" (recordingJson demoHeader nonMonoEvents) 1).1
        = [Json.str "x", Json.str "y"] := by
  refine ⟨?_, ?_, ?_⟩
  · intro recording speed f d hd
    rcases recording with _ | b | n | q | s | elems | fields
    · simp [play, sleepsOf] at hd
    · simp [play, sleepsOf] at hd
    · simp [play, sleepsOf] at hd
    · simp [play, sleepsOf] at hd
    · simp [play, sleepsOf] at hd
    · simp [play, sleepsOf] at hd
    · rcases hv : (lookupField fields "events").getD (Json.arr []) with _ | b | n | q | s | evs | fs2
      · simp [play, hv, sleepsOf] at hd
      · simp [play, hv, sleepsOf] at hd
      · simp [play, hv, sleepsOf] at hd
      · simp [play, hv, sleepsOf] at hd
      · simp [play, hv, sleepsOf] at hd
      · simp only [play, hv] at hd
        cases hfb : (playEventsLoop speed evs 0).faulted
        · simp only [hfb, Bool.false_eq_true, if_false] at hd
          simp [sleepsOf_append, sleepsOf_notice, sleepsOf_clear, sleepsOf] at hd
          exact loop_sleeps_pos speed evs 0 d hd
        · simp only [hfb, if_true] at hd
          simp [sleepsOf_append, sleepsOf_notice, sleepsOf_clear, sleepsOf] at hd
          exact loop_sleeps_pos speed evs 0 d hd
      · simp [play, hv, sleepsOf] at hd
  · simp [play, recordingJson, headerFields, demoHeader, nonMonoEvents, eventJson,
      playEventsLoop, asNum, isOutTag, lookupField, sleepsOf]
  · simp [play, recordingJson, headerFields, demoHeader, nonMonoEvents, eventJson,
      playEventsLoop, asNum, isOutTag, lookupField, writesOf]

theorem play_sleeps_positive_witness : (0 : ℚ) < 2 :=
  play_sleeps_positive.1 (recordingJson demoHeader nonMonoEvents) 1 "demo.cast" 2 (by
    have hev : sleepsOf (play "demo.cast" (recordingJson demoHeader nonMonoEvents) 1).1 = [2] := by
      simp [play, recordingJson, headerFields, demoHeader, nonMonoEvents, eventJson,
        playEventsLoop, asNum, isOutTag, lookupField, sleepsOf]
    rw [hev]
    simp)

/-- C5: on every exit path of record — normal child exit, descriptor
read/write error, spawn failure, external cancellation — the terminal
attributes after the call equal the attributes saved before it (the model
has no other attribute-changing action), and the action sequence ends with
the restore immediately followed by the master-descriptor close, so the
saved attributes are restored before the descriptor is released. -/
theorem record_restores_attrs {A : Type} (init raw : A) (p : ExitPath) :
    applyAttrs (recordActions init raw p) init = init
    ∧ ∃ pre, recordActions init raw p
        = pre ++ [TermAction.setAttrs init, TermAction.closeMasterFd] := by
  cases p
  · exact ⟨rfl, ⟨[.spawnChild, .closeSlaveFd, .setAttrs raw, .writeRecordingFile], rfl⟩⟩
  · exact ⟨rfl, ⟨[.spawnChild, .closeSlaveFd, .setAttrs raw, .writeRecordingFile], rfl⟩⟩
  · exact ⟨rfl, ⟨[.spawnChild], rfl⟩⟩
  · exact ⟨rfl, ⟨[.spawnChild, .closeSlaveFd, .setAttrs raw], rfl⟩⟩

/-- C6 counterexample: info on a missing file prints the error line but the
blanket handler swallows the exception and the process exits with status
zero, not a nonzero status as claimed. -/
theorem info_missing_exits_zero :
    infoCmd "ghost.cast" File.missing
        = (["Error reading file: no such file: ghost.cast"], Outcome.exited 0)
    ∧ ¬ exitsNonZero (infoCmd "ghost.cast" File.missing).2 := by
  refine ⟨rfl, ?_⟩
  rintro ⟨c, hc, hne⟩
  simp only [infoCmd] at hc
  exact hne (Outcome.exited.inj hc).symm

/-- C6 (amended): on a missing or syntactically invalid file, play prints a
descriptive error and exits with status 1, while info prints a descriptive
error and exits with status zero; neither path is an unhandled fault. -/
theorem play_info_error_paths (name : String) (speed : ℚ) (fs : File)
    (hfs : fs = File.missing ∨ fs = File.invalid) :
    (∃ msg, playCmd name fs speed = ([Step.notice msg], Outcome.exited 1))
    ∧ (∃ msg, infoCmd name fs = ([msg], Outcome.exited 0)) := by
  rcases hfs with h | h <;> subst h
  · exact ⟨⟨"Error: Recording file " ++ name ++ " not found", rfl⟩,
      ⟨"Error reading file: no such file: " ++ name, rfl⟩⟩
  · exact ⟨⟨"Error: Invalid recording file " ++ name, rfl⟩,
      ⟨"Error reading file: invalid JSON", rfl⟩⟩

theorem play_info_error_paths_witness :
    (∃ msg, playCmd "ghost.cast" File.missing 1 = ([Step.notice msg], Outcome.exited 1))
    ∧ (∃ msg, infoCmd "ghost.cast" File.missing = ([msg], Outcome.exited 0)) :=
  play_info_error_paths "ghost.cast" 1 File.missing (Or.inl rfl)

/-- C7 counterexample: a file holding the valid JSON document [] — not the
expected object structure — is loaded without any error, refuting the claim
that the load step fails with a Format error; playback then aborts with an
unhandled fault after having produced partial output (the two notices and
the clear sequence). -/
theorem load_accepts_wrong_shape :
    (¬ ∃ e, loadRecording "bad.cast" (File.valid (Json.arr [])) = Except.error e)
    ∧ playCmd "bad.cast" (File.valid (Json.arr [])) 1
        = ([Step.notice "Playing bad.cast", Step.notice "Press Ctrl+C to stop playback",
            Step.clear], Outcome.faulted) := by
  refine ⟨?_, rfl⟩
  rintro ⟨e, he⟩
  simp [loadRecording] at he

/-- C7 (amended): load reports an error only for a missing file or
syntactically invalid JSON; any parsed document is accepted unchanged, and
when it is not an object, playback raises an unhandled fault after emitting
the two notices and the clear sequence — partial playback output is
produced rather than prevented. -/
theorem play_wrong_shape_faults (f : String) (speed : ℚ) (j : Json)
    (hj : isObjValue j = false) :
    loadRecording f (File.valid j) = Except.ok j
    ∧ playCmd f (File.valid j) speed
        = ([Step.notice ("Playing " ++ f), Step.notice "Press Ctrl+C to stop playback",
            Step.clear], Outcome.faulted) := by
  refine ⟨rfl, ?_⟩
  rcases j with _ | b | n | q | s | elems | fields <;>
    simp [playCmd, loadRecording, play, isObjValue] at hj ⊢

theorem play_wrong_shape_faults_witness :
    loadRecording "bad.cast" (File.valid (Json.str "oops")) = Except.ok (Json.str "oops")
    ∧ playCmd "bad.cast" (File.valid (Json.str "oops")) 1
        = ([Step.notice "Playing bad.cast", Step.notice "Press Ctrl+C to stop playback",
            Step.clear], Outcome.faulted) :=
  play_wrong_shape_faults "bad.cast" 1 (Json.str "oops") rfl

/-- C8 counterexample: a write failure after one character leaves the single
character \x7b visible at the destination — neither the previous content of
the destination nor the complete serialization — so a partially-written
file is left visible, refuting atomicity. -/
theorem persist_partial_left_visible :
    persistFile (some "previous contents") tinyRec (some 1) = some "\x7b"
    ∧ ¬ (persistFile (some "previous contents") tinyRec (some 1) = some "previous contents"
         ∨ persistFile (some "previous contents") tinyRec (some 1)
             = some (renderJson tinyRec)) := by
  constructor
  · rfl
  · rintro (h | h) <;> exact absurd h (by decide)

/-- C8 (amended): persist truncates the destination on open — independently
of its previous content — and streams the serialization, so a failure after
k characters leaves the first k characters of the serialization visible (a
partial file), and only the no-failure path leaves the complete
serialization. -/
theorem persist_streams_truncates (previous : Option String) (r : Json) (failAfter : Option ℕ) :
    (∃ c rest, persistFile previous r failAfter = some c
        ∧ c ++ rest = renderJson r)
    ∧ persistFile previous r none = some (renderJson r)
    ∧ ∀ previous2, persistFile previous r failAfter = persistFile previous2 r failAfter := by
  refine ⟨?_, rfl, fun previous2 => rfl⟩
  cases failAfter with
  | none => exact ⟨renderJson r, "", rfl, by simp⟩
  | some k =>
    refine ⟨takeChars (renderJson r) k, String.mk ((renderJson r).toList.drop k), rfl, ?_⟩
    show String.mk ((renderJson r).toList.take k) ++ String.mk ((renderJson r).toList.drop k)
        = renderJson r
    rw [show ∀ a b : List Char, String.mk a ++ String.mk b = String.mk (a ++ b)
        from fun a b => rfl]
    rw [List.take_append_drop]
    rfl

/-- C9 counterexample: the env object of a persisted recording has no
lowercase shell or term key — the recorder writes the uppercase keys SHELL
and TERM — so the claimed keys are absent. -/
theorem env_lowercase_keys_absent :
    Option.bind (jget (recordingJson envHeader []) "env") (fun e => jget e "shell") = none
    ∧ Option.bind (jget (recordingJson envHeader []) "env") (fun e => jget e "term") = none
    ∧ ¬ (Option.bind (jget (recordingJson envHeader []) "env")
          (fun e => jget e "shell")).isSome = true := by
  exact ⟨rfl, rfl, by simp [recordingJson, headerFields, jget, lookupField, envHeader]⟩

/-- C9 (amended): the persisted header carries version 2, the positive
terminal width and height captured at start, an integer timestamp, and an
env object whose keys are the uppercase SHELL and TERM, holding the shell
and terminal type. -/
theorem header_fields_present (h : RecHeader) (events : List Event)
    (hw : 0 < h.width) (hh : 0 < h.height) :
    jget (recordingJson h events) "version" = some (.int 2)
    ∧ (∃ w, jget (recordingJson h events) "width" = some (.int w) ∧ 0 < w)
    ∧ (∃ ht, jget (recordingJson h events) "height" = some (.int ht) ∧ 0 < ht)
    ∧ (∃ ts, jget (recordingJson h events) "timestamp" = some (.int ts))
    ∧ Option.bind (jget (recordingJson h events) "env") (fun e => jget e "SHELL")
        = some (.str h.shell)
    ∧ Option.bind (jget (recordingJson h events) "env") (fun e => jget e "TERM")
        = some (.str h.term) :=
  ⟨rfl, ⟨h.width, rfl, hw⟩, ⟨h.height, rfl, hh⟩, ⟨h.timestamp, rfl⟩, rfl, rfl⟩

theorem header_fields_present_witness :
    jget (recordingJson envHeader []) "version" = some (.int 2)
    ∧ (∃ w, jget (recordingJson envHeader []) "width" = some (.int w) ∧ 0 < w)
    ∧ (∃ ht, jget (recordingJson envHeader []) "height" = some (.int ht) ∧ 0 < ht)
    ∧ (∃ ts, jget (recordingJson envHeader []) "timestamp" = some (.int ts))
    ∧ Option.bind (jget (recordingJson envHeader []) "env") (fun e => jget e "SHELL")
        = some (.str envHeader.shell)
    ∧ Option.bind (jget (recordingJson envHeader []) "env") (fun e => jget e "TERM")
        = some (.str envHeader.term) :=
  header_fields_present envHeader [] (by norm_num [envHeader]) (by norm_num [envHeader])

/-- C10: playing a file that parses to a JSON object with no events key, or
with an empty events array, completes cleanly with exit status zero: the two
notices, the clear sequence and the finished notice are emitted, no sleep is
performed and no payload is written. -/
theorem play_no_events (f : String) (fields : List (String × Json)) (speed : ℚ)
    (hev : lookupField fields "events" = none
        ∨ lookupField fields "events" = some (Json.arr [])) :
    playCmd f (File.valid (Json.obj fields)) speed
        = ([Step.notice ("Playing " ++ f), Step.notice "Press Ctrl+C to stop playback",
            Step.clear, Step.notice "Playback finished"], Outcome.exited 0)
    ∧ sleepsOf (playCmd f (File.valid (Json.obj fields)) speed).1 = []
    ∧ writesOf (playCmd f (File.valid (Json.obj fields)) speed).1 = [] := by
  have hmain : playCmd f (File.valid (Json.obj fields)) speed
      = ([Step.notice ("Playing " ++ f), Step.notice "Press Ctrl+C to stop playback",
          Step.clear, Step.notice "Playback finished"], Outcome.exited 0) := by
    rcases hev with h | h <;> simp [playCmd, loadRecording, play, h, playEventsLoop]
  refine ⟨hmain, ?_, ?_⟩ <;> rw [hmain] <;> rfl

theorem play_no_events_witness :
    playCmd "empty.cast" (File.valid (Json.obj [("version", Json.int 2)])) 1
        = ([Step.notice "Playing empty.cast", Step.notice "Press Ctrl+C to stop playback",
            Step.clear, Step.notice "Playback finished"], Outcome.exited 0)
    ∧ sleepsOf (playCmd "empty.cast" (File.valid (Json.obj [("version", Json.int 2)])) 1).1 = []
    ∧ writesOf (playCmd "empty.cast" (File.valid (Json.obj [("version", Json.int 2)])) 1).1 = [] :=
  play_no_events "empty.cast" [("version", Json.int 2)] 1 (Or.inl rfl)

end Asciicast
